import Mathlib

/-!
# Verification of the cmdbench terminal-session engine

Shallow embedding of the two core components of the terminal-session
engine — the Local Multiplexer (`src/unnamed/part_017`, the
`useMultipleTerminals` hook) and the Remote Bridge
(`src/src/shared/services/remoteControl.ts`, `RemoteControlService`) —
together with proofs about their behaviour.

Time is modelled in integer milliseconds (`Nat`).  PTY reads return
`Option String` exactly as `async_read_from_pty` does (`none` = channel
closed / EOF); a read that throws is modelled explicitly where it
matters.  All stateful code is embedded as pure state-passing functions
or as small-step transition systems with explicit schedules.
-/

namespace RemoteControl

/-! ## Completion inference (remoteControl.ts, `startReadLoop`)

`startReadLoop` keeps a local `lastOutputTime` (initialised to
`Date.now()` when the loop is set up), schedules a first inactivity
check `INACTIVITY_THRESHOLD` ms after the read loop starts, and each
check that finds the gap below the threshold reschedules itself 500 ms
later.  A check that finds `now - lastOutputTime ≥ INACTIVITY_THRESHOLD`
emits `terminal:exit {exitCode: 0}` and tears the session down.

We model the output history as a Boolean trace `outs : Nat → Bool`
(`outs s = true` iff a data chunk arrived — and was processed — at
instant `s`).  A chunk arriving at the same instant as a check is taken
to be processed before the check runs. -/

/-- `INACTIVITY_THRESHOLD = 2000` in `startReadLoop`: 2 s of no output
means the command is considered finished. -/
def INACTIVITY_THRESHOLD : Nat := 2000

/-- Reschedule delay of `checkInactivity` (`setTimeout(checkInactivity, 500)`). -/
def POLL_INTERVAL : Nat := 500

/-- Instant of the `k`-th run of `checkInactivity` when no check before
it fires: the first run is scheduled `INACTIVITY_THRESHOLD` after the
read loop starts at `t0`, and every non-firing run reschedules itself
`POLL_INTERVAL` later. -/
def checkTime (t0 : Nat) : Nat → Nat
  | 0 => t0 + INACTIVITY_THRESHOLD
  | k + 1 => checkTime t0 k + POLL_INTERVAL

/-- Value of the loop's `lastOutputTime` variable at instant `t`:
initialised to `t0` when the loop is set up, and set to the arrival
instant of every chunk processed since (chunks before the loop starts do
not exist for this session). -/
def lastOutputTime (t0 : Nat) (outs : Nat → Bool) (t : Nat) : Nat :=
  max t0 (Nat.findGreatest (fun s => t0 ≤ s ∧ outs s = true) t)

/-- The `checkInactivity` test at instant `t`:
`Date.now() - lastOutputTime >= INACTIVITY_THRESHOLD`. -/
def firesAt (t0 : Nat) (outs : Nat → Bool) (t : Nat) : Bool :=
  INACTIVITY_THRESHOLD ≤ t - lastOutputTime t0 outs t

theorem lastOutputTime_le {t0 t : Nat} (outs : Nat → Bool) (h : t0 ≤ t) :
    lastOutputTime t0 outs t ≤ t :=
  max_le h (Nat.findGreatest_le t)

theorem le_lastOutputTime (t0 : Nat) (outs : Nat → Bool) (t : Nat) :
    t0 ≤ lastOutputTime t0 outs t :=
  le_max_left _ _

theorem lastOutputTime_mono (t0 : Nat) (outs : Nat → Bool) {s t : Nat} (h : s ≤ t) :
    lastOutputTime t0 outs s ≤ lastOutputTime t0 outs t :=
  max_le_max le_rfl (Nat.findGreatest_mono_right _ h)

theorem t0_le_checkTime (t0 k : Nat) : t0 ≤ checkTime t0 k := by
  induction k with
  | zero => simp [checkTime]
  | succ k ih => simp only [checkTime]; omega

theorem checkTime_succ (t0 k : Nat) :
    checkTime t0 (k + 1) = checkTime t0 k + POLL_INTERVAL := rfl

/-- If no chunk arrives after instant `L`, then `lastOutputTime` at any
instant is at most `max t0 L`. -/
theorem lastOutputTime_le_of_silent {t0 L : Nat} {outs : Nat → Bool}
    (hsil : ∀ s, L < s → outs s = false) (t : Nat) :
    lastOutputTime t0 outs t ≤ max t0 L := by
  apply max_le (le_max_left _ _)
  rcases Nat.eq_zero_or_pos (Nat.findGreatest (fun s => t0 ≤ s ∧ outs s = true) t) with h0 | hpos
  · simp [h0]
  · have hspec : t0 ≤ Nat.findGreatest (fun s => t0 ≤ s ∧ outs s = true) t ∧
        outs (Nat.findGreatest (fun s => t0 ≤ s ∧ outs s = true) t) = true :=
      Nat.findGreatest_of_ne_zero rfl (Nat.pos_iff_ne_zero.mp hpos)
    by_contra hgt
    push_neg at hgt
    have : outs (Nat.findGreatest (fun s => t0 ≤ s ∧ outs s = true) t) = false :=
      hsil _ (lt_of_le_of_lt (le_max_right t0 L) hgt)
    rw [hspec.2] at this
    exact Bool.noConfusion this

theorem firesAt_iff (t0 : Nat) (outs : Nat → Bool) (t : Nat) :
    firesAt t0 outs t = true ↔
      INACTIVITY_THRESHOLD ≤ t - lastOutputTime t0 outs t := by
  simp [firesAt]

/-- A firing check happens no earlier than `INACTIVITY_THRESHOLD` after
the last output (or loop start). -/
theorem fire_lower_bound {t0 t : Nat} {outs : Nat → Bool} (ht : t0 ≤ t)
    (hf : firesAt t0 outs t = true) :
    lastOutputTime t0 outs t + INACTIVITY_THRESHOLD ≤ t := by
  have h1 := (firesAt_iff t0 outs t).mp hf
  have h2 := lastOutputTime_le outs ht
  omega

/-- A firing check whose predecessor (if any) did not fire happens no
later than `INACTIVITY_THRESHOLD + POLL_INTERVAL` after the last
output (or loop start). -/
theorem fire_upper_bound {t0 : Nat} {outs : Nat → Bool} {k : Nat}
    (hprev : ∀ j, j < k → firesAt t0 outs (checkTime t0 j) = false) :
    checkTime t0 k ≤
      lastOutputTime t0 outs (checkTime t0 k) + INACTIVITY_THRESHOLD + POLL_INTERVAL := by
  have hTH : INACTIVITY_THRESHOLD = 2000 := rfl
  have hPI : POLL_INTERVAL = 500 := rfl
  cases k with
  | zero =>
    have h1 := le_lastOutputTime t0 outs (checkTime t0 0)
    have h0 : checkTime t0 0 = t0 + INACTIVITY_THRESHOLD := rfl
    omega
  | succ k =>
    have hk : firesAt t0 outs (checkTime t0 k) = false := hprev k (Nat.lt_succ_self k)
    have hk' : ¬ INACTIVITY_THRESHOLD ≤ checkTime t0 k - lastOutputTime t0 outs (checkTime t0 k) := by
      intro hc
      rw [← firesAt_iff t0 outs (checkTime t0 k)] at hc
      rw [hk] at hc
      exact Bool.noConfusion hc
    have hle := lastOutputTime_le outs (t0_le_checkTime t0 k)
    have hmono : lastOutputTime t0 outs (checkTime t0 k) ≤
        lastOutputTime t0 outs (checkTime t0 k + POLL_INTERVAL) :=
      lastOutputTime_mono t0 outs (Nat.le_add_right _ _)
    rw [checkTime_succ]
    omega

/-- If output goes silent after instant `L`, some inactivity check does
fire. -/
theorem fire_exists {t0 L : Nat} {outs : Nat → Bool} (hL : t0 ≤ L)
    (hsil : ∀ s, L < s → outs s = false) :
    ∃ k, firesAt t0 outs (checkTime t0 k) = true := by
  refine ⟨L - t0, ?_⟩
  rw [firesAt_iff]
  have hlast : lastOutputTime t0 outs (checkTime t0 (L - t0)) ≤ max t0 L :=
    lastOutputTime_le_of_silent hsil _
  have hct : L + INACTIVITY_THRESHOLD ≤ checkTime t0 (L - t0) := by
    have : ∀ k, checkTime t0 k = t0 + INACTIVITY_THRESHOLD + POLL_INTERVAL * k := by
      intro k
      induction k with
      | zero => simp [checkTime]
      | succ k ih => rw [checkTime_succ, ih]; ring
    rw [this]
    show L + 2000 ≤ t0 + 2000 + 500 * (L - t0)
    omega
  rw [max_eq_right hL] at hlast
  have hTH : INACTIVITY_THRESHOLD = 2000 := rfl
  have hlastle : lastOutputTime t0 outs (checkTime t0 (L - t0)) ≤ checkTime t0 (L - t0) :=
    lastOutputTime_le outs (t0_le_checkTime t0 _)
  omega

/-- Output arriving every `INACTIVITY_THRESHOLD / 2` ms keeps every
check below the threshold: no check ever fires. -/
theorem fire_never_of_periodic {t0 : Nat} {outs : Nat → Bool}
    (hper : ∀ s, outs s = true ↔ t0 ≤ s ∧ (s - t0) % (INACTIVITY_THRESHOLD / 2) = 0) :
    ∀ k, firesAt t0 outs (checkTime t0 k) = false := by
  intro k
  set c := checkTime t0 k with hc
  have hct0 : t0 ≤ c := t0_le_checkTime t0 k
  -- the most recent periodic output at or before `c`
  set s := t0 + 1000 * ((c - t0) / 1000) with hs
  have hsle : s ≤ c := by omega
  have houts : outs s = true := by
    rw [hper s]
    have hTH2 : INACTIVITY_THRESHOLD / 2 = 1000 := rfl
    rw [hTH2]
    constructor
    · omega
    · omega
  have hfg : s ≤ Nat.findGreatest (fun u => t0 ≤ u ∧ outs u = true) c :=
    Nat.le_findGreatest hsle ⟨by omega, houts⟩
  have hlast : s ≤ lastOutputTime t0 outs c :=
    le_trans hfg (le_max_right _ _)
  have hlastle : lastOutputTime t0 outs c ≤ c := lastOutputTime_le outs hct0
  rw [← Bool.not_eq_true, firesAt_iff]
  have hTH : INACTIVITY_THRESHOLD = 2000 := rfl
  omega

/-- C1.  Completion inference timing: for a remote session whose read
loop starts at `t0` with output trace `outs`, (1) any inactivity check
that fires, all earlier checks having not fired, does so no earlier than
`INACTIVITY_THRESHOLD` (2000 ms) and no later than
`INACTIVITY_THRESHOLD + POLL_INTERVAL` (2000 + 500 ms) after the last
output (or after loop start if no output arrived); (2) if output stops
after some instant `L`, a check does fire (so `terminal:exit` with code
0 is emitted); (3) output delivered every `INACTIVITY_THRESHOLD / 2` ms
indefinitely never lets any check fire. -/
theorem c1_completion_inference_timing (t0 : Nat) (outs : Nat → Bool) :
    (∀ k, firesAt t0 outs (checkTime t0 k) = true →
      (∀ j, j < k → firesAt t0 outs (checkTime t0 j) = false) →
      lastOutputTime t0 outs (checkTime t0 k) + INACTIVITY_THRESHOLD ≤ checkTime t0 k ∧
      checkTime t0 k ≤
        lastOutputTime t0 outs (checkTime t0 k) + INACTIVITY_THRESHOLD + POLL_INTERVAL) ∧
    (∀ L, t0 ≤ L → (∀ s, L < s → outs s = false) →
      ∃ k, firesAt t0 outs (checkTime t0 k) = true) ∧
    ((∀ s, outs s = true ↔ t0 ≤ s ∧ (s - t0) % (INACTIVITY_THRESHOLD / 2) = 0) →
      ∀ k, firesAt t0 outs (checkTime t0 k) = false) := by
  refine ⟨fun k hf hprev => ⟨fire_lower_bound (t0_le_checkTime t0 k) hf, fire_upper_bound hprev⟩,
    fun L hL hsil => fire_exists hL hsil,
    fun hper => fire_never_of_periodic hper⟩

/-- Witness for C1 at a concrete trace: with loop start 0 and output at
every multiple of 1000 ms, the first check (at 2000 ms) does not fire. -/
theorem c1_completion_inference_timing_witness :
    firesAt 0 (fun s => decide (s % 1000 = 0)) (checkTime 0 0) = false :=
  (c1_completion_inference_timing 0 (fun s => decide (s % 1000 = 0))).2.2
    (by intro s; simp [INACTIVITY_THRESHOLD]) 0

/-! ## Remote execute handling (remoteControl.ts, `handleCommandExecute`)

`handleCommandExecute` awaits `async_create_shell`; on success it
*first* inserts the session into `activeSessions`, then (on Windows
only) writes the code-page priming command, waits 300 ms and performs a
single read whose result is discarded (read errors swallowed), then
starts the read loop and writes `command + '\r'`.  Any exception in
this `try` block — spawn failure, priming-write failure or
command-write failure — lands in the `catch`, which emits
`terminal:exit` with `exitCode: 1`. -/

/-- Events emitted on the control connection for a remote session. -/
inductive REvent
  | output (sessionId : String) (data : String)
  | exit (sessionId : String) (exitCode : Nat)
  deriving DecidableEq, Repr

/-- Environment for one `command:execute` request: result of
`async_create_shell` (`none` = spawn failure), the platform name, and
whether each `async_write_to_pty` call succeeds.  The discarded priming
read's outcome is irrelevant (its errors are swallowed). -/
structure ExecEnv where
  createResult : Option String
  platformName : String
  primingWriteOk : Bool
  cmdWriteOk : Bool
  deriving DecidableEq, Repr

/-- Shallow embedding of `handleCommandExecute`: returns the events the
handler itself emits, the updated `activeSessions` map
(sessionId → ptyId association list), and whether `startReadLoop` was
reached. -/
def handleCommandExecute (sessions : List (String × String)) (sessionId : String)
    (env : ExecEnv) : List REvent × List (String × String) × Bool :=
  match env.createResult with
  | none => ([REvent.exit sessionId 1], sessions, false)
  | some ptyId =>
    let sessions1 := (sessionId, ptyId) :: sessions
    if env.platformName = "windows" then
      if env.primingWriteOk then
        if env.cmdWriteOk then ([], sessions1, true)
        else ([REvent.exit sessionId 1], sessions1, true)
      else ([REvent.exit sessionId 1], sessions1, false)
    else
      if env.cmdWriteOk then ([], sessions1, true)
      else ([REvent.exit sessionId 1], sessions1, true)

/-- One result of `async_read_from_pty`: `readErr` models a rejected
invoke, `readData none` the channel-closed (EOF) result. -/
inductive ReadResult
  | readData (data : Option String)
  | readErr
  deriving DecidableEq, Repr

/-- One iteration body of the remote read loop for a successfully read
chunk `data`: `if (data && this.socket?.connected)` the chunk is
emitted as `terminal:output` and `lastOutputTime` is set to `now`;
otherwise nothing is emitted and the clock keeps its old value. -/
def handleChunk (sessionId : String) (connected : Bool) (lastOutput now : Nat)
    (data : String) : List REvent × Nat :=
  if data ≠ "" ∧ connected = true then ([REvent.output sessionId data], now)
  else ([], lastOutput)

/-- Events the remote read loop emits while consuming `reads`, for a
session that stays registered throughout: each non-empty chunk is
emitted while the socket is connected; EOF (`null`) or a read error
breaks the loop, after which the loop emits `terminal:exit` with code 0
and cleans the session up.  An exhausted list models a loop still
blocked in its next read: nothing further is emitted yet. -/
def readLoopEvents (sessionId : String) (connected : Bool) : List ReadResult → List REvent
  | [] => []
  | ReadResult.readErr :: _ => [REvent.exit sessionId 0]
  | ReadResult.readData none :: _ => [REvent.exit sessionId 0]
  | ReadResult.readData (some d) :: rest =>
      (if d ≠ "" ∧ connected = true then [REvent.output sessionId d] else []) ++
        readLoopEvents sessionId connected rest

/-- The event `checkInactivity` emits when the inactivity threshold is
reached with the session still registered: exit code 0. -/
def inferredCompletionEvent (sessionId : String) : REvent := REvent.exit sessionId 0

/-- C2 counterexample: with a successful PTY creation on a non-Windows
platform but a failing command write, the handler emits
`terminal:exit` with code 1 even though PTY creation succeeded, and the
session remains registered. -/
theorem c2_remote_exit_code_counterexample :
    (handleCommandExecute [] "s1" ⟨some "p1", "linux", true, false⟩).1 =
        [REvent.exit "s1" 1] ∧
      (⟨some "p1", "linux", true, false⟩ : ExecEnv).createResult ≠ none ∧
      (handleCommandExecute [] "s1" ⟨some "p1", "linux", true, false⟩).2.1 =
        [("s1", "p1")] := by
  refine ⟨rfl, by simp, rfl⟩

/-- C2 (amended).  Exit code 1 is emitted exactly when the execute
handler's try-block fails: PTY creation failure, Windows priming-write
failure, or command-write failure.  Only in the creation-failure case is
no session registered; a write failure leaves the session registered.
All read-loop endings (EOF, read error) and inferred completion emit
exit code 0. -/
theorem c2_remote_exit_codes (sessions : List (String × String)) (sessionId : String)
    (env : ExecEnv) (connected : Bool) (reads : List ReadResult) :
    ((REvent.exit sessionId 1 ∈ (handleCommandExecute sessions sessionId env).1) ↔
      (env.createResult = none ∨
        (env.platformName = "windows" ∧ env.primingWriteOk = false) ∨
        env.cmdWriteOk = false)) ∧
    (env.createResult = none →
      (handleCommandExecute sessions sessionId env).2.1 = sessions) ∧
    (∀ ptyId, env.createResult = some ptyId →
      (handleCommandExecute sessions sessionId env).2.1 = (sessionId, ptyId) :: sessions) ∧
    (∀ c, REvent.exit sessionId c ∈ readLoopEvents sessionId connected reads → c = 0) ∧
    inferredCompletionEvent sessionId = REvent.exit sessionId 0 := by
  obtain ⟨cr, pf, pw, cw⟩ := env
  refine ⟨?_, ?_, ?_, ?_, rfl⟩
  · cases cr with
    | none => simp [handleCommandExecute]
    | some ptyId =>
      simp only [handleCommandExecute]
      by_cases hpf : pf = "windows" <;> cases pw <;> cases cw <;> simp [hpf]
  · intro h
    cases cr with
    | none => rfl
    | some ptyId => exact absurd h (by simp)
  · intro ptyId h
    cases cr with
    | none => exact absurd h (by simp)
    | some p =>
      obtain rfl : p = ptyId := by simpa using h
      simp only [handleCommandExecute]
      by_cases hpf : pf = "windows" <;> cases pw <;> cases cw <;> simp [hpf]
  · intro c hc
    induction reads with
    | nil => simp [readLoopEvents] at hc
    | cons r rest ih =>
      cases r with
      | readErr => simp [readLoopEvents] at hc; omega
      | readData d =>
        cases d with
        | none => simp [readLoopEvents] at hc; omega
        | some s =>
          simp only [readLoopEvents, List.mem_append] at hc
          rcases hc with hc | hc
          · by_cases hs : s ≠ "" ∧ connected = true <;> simp [hs] at hc
          · exact ih hc

/-- Witness for C2's amended theorem at a concrete input: a spawn
failure leaves the session map unchanged. -/
theorem c2_remote_exit_codes_witness :
    (handleCommandExecute [] "s1" ⟨none, "linux", true, true⟩).2.1 = [] :=
  (c2_remote_exit_codes [] "s1" ⟨none, "linux", true, true⟩ true []).2.1 rfl

/-- C5 counterexample: an empty-string chunk is non-null, yet it is
neither emitted as a `terminal:output` event nor does it reset the
inactivity clock (`if (data && ...)` is false for `""`). -/
theorem c5_chunk_counterexample :
    ¬ (REvent.output "s1" "" ∈ (handleChunk "s1" true 100 200 "").1 ∧
        (handleChunk "s1" true 100 200 "").2 = 200) := by
  decide

/-- C5 (amended).  A non-null chunk is emitted to the connection and
resets the inactivity clock exactly when the chunk is non-empty and the
socket is connected; an empty chunk, or any chunk read while the socket
is disconnected, is neither emitted nor resets the clock. -/
theorem c5_chunk_handling (sessionId : String) (connected : Bool)
    (lastOutput now : Nat) (data : String) :
    (data ≠ "" → connected = true →
      handleChunk sessionId connected lastOutput now data =
        ([REvent.output sessionId data], now)) ∧
    (data = "" ∨ connected = false →
      handleChunk sessionId connected lastOutput now data = ([], lastOutput)) := by
  constructor
  · intro hd hc
    simp [handleChunk, hd, hc]
  · intro h
    rcases h with h | h
    · simp [handleChunk, h]
    · simp [handleChunk, h]

/-- Witness for C5's amended theorem: a non-empty chunk on a connected
socket is emitted and resets the clock. -/
theorem c5_chunk_handling_witness :
    handleChunk "s1" true 100 200 "hi" = ([REvent.output "s1" "hi"], 200) :=
  (c5_chunk_handling "s1" true 100 200 "hi").1 (by decide) rfl

/-! ## Teardown (remoteControl.ts, `cleanupSession`)

`cleanupSession` looks the session up in `activeSessions`; when found it
calls `unlistenRead`, *awaits* `async_remove_pty`, and only after that
await deletes the map entry.  JavaScript executes the code between two
`await`s atomically, so one invocation has two atomic steps: everything
up to and including issuing the destroy (skipped entirely when the
lookup misses), and the post-await `activeSessions.delete`. -/

/-- State shared by concurrent `cleanupSession` invocations for one
sessionId: whether the session is still in `activeSessions`, and how
many times `async_remove_pty` has been issued for its handle. -/
structure CState where
  inMap : Bool
  destroyCount : Nat
  deriving DecidableEq, Repr

/-- Program counter of one `cleanupSession` invocation: `pc0` = not yet
run, `pc1` = destroy issued, awaiting it, `done` = returned. -/
inductive PC
  | pc0
  | pc1
  | done
  deriving DecidableEq, Repr

/-- One atomic step of one `cleanupSession` invocation. -/
def cleanupStep : PC × CState → PC × CState
  | (PC.pc0, st) =>
    if st.inMap then (PC.pc1, { st with destroyCount := st.destroyCount + 1 })
    else (PC.done, st)
  | (PC.pc1, st) => (PC.done, { st with inMap := false })
  | (PC.done, st) => (PC.done, st)

/-- Run two interleaved `cleanupSession` invocations under a schedule:
`true` steps the first invocation, `false` the second. -/
def runSchedule : List Bool → PC × PC × CState → PC × PC × CState
  | [], s => s
  | true :: rest, (p1, p2, st) =>
    let s' := cleanupStep (p1, st)
    runSchedule rest (s'.1, p2, s'.2)
  | false :: rest, (p1, p2, st) =>
    let s' := cleanupStep (p2, st)
    runSchedule rest (p1, s'.1, s'.2)

/-- Maximum number of destroy calls one invocation can still issue. -/
def destroyBudget : PC → Nat
  | PC.pc0 => 1
  | PC.pc1 => 0
  | PC.done => 0

theorem runSchedule_destroyCount_le (sched : List Bool) (p1 p2 : PC) (st : CState) :
    (runSchedule sched (p1, p2, st)).2.2.destroyCount ≤
      st.destroyCount + destroyBudget p1 + destroyBudget p2 := by
  induction sched generalizing p1 p2 st with
  | nil =>
    simp only [runSchedule]
    omega
  | cons b rest ih =>
    have hb1 : destroyBudget PC.pc0 = 1 := rfl
    have hb2 : destroyBudget PC.pc1 = 0 := rfl
    have hb3 : destroyBudget PC.done = 0 := rfl
    cases b with
    | false =>
      cases p2 with
      | pc0 =>
        cases him : st.inMap with
        | false =>
          have h2 := ih p1 PC.done st
          simp only [runSchedule, cleanupStep, him, Bool.false_eq_true, if_false] at h2 ⊢
          omega
        | true =>
          have h2 := ih p1 PC.pc1 { st with destroyCount := st.destroyCount + 1 }
          simp only [runSchedule, cleanupStep, him, if_true] at h2 ⊢
          omega
      | pc1 =>
        have h2 := ih p1 PC.done { st with inMap := false }
        simp only [runSchedule, cleanupStep] at h2 ⊢
        omega
      | done =>
        have h2 := ih p1 PC.done st
        simp only [runSchedule, cleanupStep] at h2 ⊢
        omega
    | true =>
      cases p1 with
      | pc0 =>
        cases him : st.inMap with
        | false =>
          have h2 := ih PC.done p2 st
          simp only [runSchedule, cleanupStep, him, Bool.false_eq_true, if_false] at h2 ⊢
          omega
        | true =>
          have h2 := ih PC.pc1 p2 { st with destroyCount := st.destroyCount + 1 }
          simp only [runSchedule, cleanupStep, him, if_true] at h2 ⊢
          omega
      | pc1 =>
        have h2 := ih PC.done p2 { st with inMap := false }
        simp only [runSchedule, cleanupStep] at h2 ⊢
        omega
      | done =>
        have h2 := ih PC.done p2 st
        simp only [runSchedule, cleanupStep] at h2 ⊢
        omega

/-- C3 counterexample: two teardown triggers that overlap — the second
starting while the first is awaiting `async_remove_pty`, before the map
delete — issue the destroy twice for the same handle. -/
theorem c3_teardown_counterexample :
    (runSchedule [true, false, true, false]
        (PC.pc0, PC.pc0, ⟨true, 0⟩)).2.2.destroyCount = 2 := by
  rfl

/-- C3 (amended).  Two teardown triggers on the same sessionId that do
not overlap (the second starts after the first returns) issue exactly
one destroy call, the second finding the session already removed and
doing nothing; under arbitrary interleaving at most two destroy calls
are issued (one per trigger), because the map entry is deleted only
after the awaited destroy. -/
theorem c3_teardown_idempotence (st0 : CState) (h : st0.inMap = true) :
    runSchedule [true, true, false, false] (PC.pc0, PC.pc0, st0) =
      (PC.done, PC.done, ⟨false, st0.destroyCount + 1⟩) ∧
    (∀ sched, (runSchedule sched (PC.pc0, PC.pc0, st0)).2.2.destroyCount ≤
      st0.destroyCount + 2) := by
  obtain ⟨im, d⟩ := st0
  cases h
  constructor
  · rfl
  · intro sched
    have := runSchedule_destroyCount_le sched PC.pc0 PC.pc0 ⟨true, d⟩
    simpa [destroyBudget, Nat.add_assoc] using this

/-- Witness for C3's amended theorem at a concrete state. -/
theorem c3_teardown_idempotence_witness :
    runSchedule [true, true, false, false] (PC.pc0, PC.pc0, ⟨true, 0⟩) =
      (PC.done, PC.done, ⟨false, 1⟩) :=
  (c3_teardown_idempotence ⟨true, 0⟩ rfl).1

/-! ## Control connection management (remoteControl.ts, `connect` / `disconnect`)

`connect()` reads the bearer token from storage at call time; with no
token it flips to the error status and returns (touching no socket).
Otherwise, if a socket already exists it is disconnected and discarded
first, and only then a fresh socket is opened with that token. -/

/-- `ConnectionStatus` union type of remoteControl.ts. -/
inductive ConnectionStatus
  | disconnected
  | connecting
  | connected
  | error
  deriving DecidableEq, Repr

/-- A socket-level action performed by `connect`/`disconnect`. -/
inductive SockAction
  | disconnectSock (id : Nat)
  | openSock (id : Nat) (token : String)
  deriving DecidableEq, Repr

/-- The service state relevant to connection management: the current
socket (by identity) and the connection status. -/
structure BridgeState where
  socket : Option Nat
  status : ConnectionStatus
  deriving DecidableEq, Repr

/-- Shallow embedding of `connect()`: `accessToken` is the credential
read from storage at call time, `freshId` the identity of the socket
`io(...)` would create.  Returns the new state and the socket actions
in order. -/
def connect (st : BridgeState) (accessToken : Option String) (freshId : Nat) :
    BridgeState × List SockAction :=
  match accessToken with
  | none => ({ st with status := ConnectionStatus.error }, [])
  | some token =>
    let cleanup : BridgeState × List SockAction :=
      match st.socket with
      | some old => ({ st with socket := none }, [SockAction.disconnectSock old])
      | none => (st, [])
    ({ cleanup.1 with socket := some freshId, status := ConnectionStatus.connecting },
      cleanup.2 ++ [SockAction.openSock freshId token])

/-- Shallow embedding of `disconnect()` (socket handling only): the
socket, when present, is disconnected and discarded. -/
def disconnect (st : BridgeState) : BridgeState × List SockAction :=
  match st.socket with
  | some old =>
    ({ st with socket := none, status := ConnectionStatus.disconnected },
      [SockAction.disconnectSock old])
  | none => ({ st with status := ConnectionStatus.disconnected }, [])

/-- An external call into the connection-management surface. -/
inductive BOp
  | opConnect (token : Option String) (freshId : Nat)
  | opDisconnect
  deriving DecidableEq, Repr

def applyOp (st : BridgeState) : BOp → BridgeState × List SockAction
  | BOp.opConnect tok fresh => connect st tok fresh
  | BOp.opDisconnect => disconnect st

def runBridge (st : BridgeState) : List BOp → BridgeState × List SockAction
  | [] => (st, [])
  | op :: rest =>
    let r := applyOp st op
    let r2 := runBridge r.1 rest
    (r2.1, r.2 ++ r2.2)

/-- The set of live sockets after processing a list of socket actions
(opened and not yet disconnected). -/
def liveSockets (live : List Nat) : List SockAction → List Nat
  | [] => live
  | SockAction.openSock id _ :: rest => liveSockets (id :: live) rest
  | SockAction.disconnectSock id :: rest => liveSockets (live.erase id) rest

theorem liveSockets_append (live : List Nat) (a b : List SockAction) :
    liveSockets live (a ++ b) = liveSockets (liveSockets live a) b := by
  induction a generalizing live with
  | nil => rfl
  | cons x rest ih =>
    cases x with
    | openSock id tok => simp [liveSockets, ih]
    | disconnectSock id => simp [liveSockets, ih]

theorem applyOp_live (st : BridgeState) (op : BOp) :
    liveSockets st.socket.toList (applyOp st op).2 = (applyOp st op).1.socket.toList := by
  cases op with
  | opConnect tok fresh =>
    cases tok with
    | none => rfl
    | some token =>
      cases hs : st.socket with
      | none => simp [applyOp, connect, hs, liveSockets]
      | some old => simp [applyOp, connect, hs, liveSockets, List.erase_cons_head]
  | opDisconnect =>
    cases hs : st.socket with
    | none => simp [applyOp, disconnect, hs, liveSockets]
    | some old => simp [applyOp, disconnect, hs, liveSockets, List.erase_cons_head]

theorem runBridge_live (ops : List BOp) (st : BridgeState) :
    liveSockets st.socket.toList (runBridge st ops).2 = (runBridge st ops).1.socket.toList := by
  induction ops generalizing st with
  | nil => rfl
  | cons op rest ih =>
    simp only [runBridge, liveSockets_append, applyOp_live]
    exact ih (applyOp st op).1

/-- C9.  Single control connection: a `connect()` call that finds an
existing socket disconnects and discards it first and only then opens a
fresh socket with the credential read at call time; a call with no
credential flips to the error status without touching any socket; and
across any sequence of `connect`/`disconnect` calls the live sockets
are exactly the one in the service state, so at most one live control
connection exists at any time. -/
theorem c9_single_control_connection (st : BridgeState) (token : String)
    (fresh : Nat) (ops : List BOp) :
    (∀ old, st.socket = some old →
      (connect st (some token) fresh).2 =
        [SockAction.disconnectSock old, SockAction.openSock fresh token] ∧
      (connect st (some token) fresh).1.socket = some fresh) ∧
    connect st none fresh = ({ st with status := ConnectionStatus.error }, []) ∧
    liveSockets st.socket.toList (runBridge st ops).2 = (runBridge st ops).1.socket.toList ∧
    (st.socket = none → ∀ ops', (liveSockets [] (runBridge st ops').2).length ≤ 1) := by
  refine ⟨?_, rfl, runBridge_live ops st, ?_⟩
  · intro old hold
    constructor
    · simp [connect, hold]
    · simp [connect, hold]
  · intro hnone ops'
    have h := runBridge_live ops' st
    rw [hnone] at h
    simp only [Option.toList] at h
    rw [h]
    cases (runBridge st ops').1.socket <;> simp

/-- Witness for C9 at a concrete state: reconnecting over socket 7
disconnects it before opening socket 8. -/
theorem c9_single_control_connection_witness :
    (connect ⟨some 7, ConnectionStatus.connected⟩ (some "tok") 8).2 =
      [SockAction.disconnectSock 7, SockAction.openSock 8 "tok"] :=
  ((c9_single_control_connection ⟨some 7, ConnectionStatus.connected⟩ "tok" 8 []).1 7 rfl).1

end RemoteControl

namespace LocalMux

/-! ## Local Multiplexer (`useMultipleTerminals`, src/unnamed/part_017) -/

/-! ### Read-loop bookkeeping (`startReadLoop`)

`startReadLoop(ptyId, terminal)` returns immediately when
`activeReadLoopsRef.current.has(ptyId)`; otherwise it adds `ptyId` to
the set and launches the asynchronous read loop (the only code that
issues `async_read_from_pty` calls for that pty). -/

/-- Shallow embedding of the Local Multiplexer's `startReadLoop`:
returns the updated `activeReadLoopsRef` set and whether a new read
loop was launched (`false` = no loop spawned, hence no additional
`async_read_from_pty` calls issued). -/
def startReadLoop (loops : List String) (ptyId : String) : List String × Bool :=
  if ptyId ∈ loops then (loops, false) else (ptyId :: loops, true)

/-- C10.  Local read-loop start is idempotent: calling `startReadLoop`
for a ptyId that already has an active loop is a no-op that spawns
nothing; in particular a second call right after a first is a no-op,
and the set of active loops never holds a ptyId twice, so at most one
read loop per PTY handle runs at any time. -/
theorem c10_local_readloop_idempotent (loops : List String) (p : String) :
    (p ∈ loops → startReadLoop loops p = (loops, false)) ∧
    startReadLoop (startReadLoop loops p).1 p = ((startReadLoop loops p).1, false) ∧
    (loops.Nodup →
      (startReadLoop loops p).1.Nodup ∧ (startReadLoop loops p).1.count p = 1) := by
  refine ⟨fun hm => by simp [startReadLoop, hm], ?_, fun hnd => ?_⟩
  · by_cases hm : p ∈ loops
    · simp [startReadLoop, hm]
    · simp [startReadLoop, hm]
  · by_cases hm : p ∈ loops
    · simp only [startReadLoop, if_pos hm]
      exact ⟨hnd, List.count_eq_one_of_mem hnd hm⟩
    · simp only [startReadLoop, if_neg hm]
      refine ⟨List.nodup_cons.mpr ⟨hm, hnd⟩, ?_⟩
      rw [List.count_cons_self]
      rw [List.count_eq_zero_of_not_mem hm]

/-- Witness for C10 at a concrete set: starting a loop for a pty that
already has one changes nothing. -/
theorem c10_local_readloop_idempotent_witness :
    startReadLoop ["p1"] "p1" = (["p1"], false) :=
  (c10_local_readloop_idempotent ["p1"] "p1").1 (by decide)

/-! ### Resize suppression (`fitActiveTerminal`)

`fitActiveTerminal` runs only when an active terminal instance exists
and its container is not hidden; it saves the terminal's current
(rows, cols), calls `fitAddon.fit()` (which sets the terminal to the
newly computed size), and invokes `async_resize_pty` only when the new
size differs from the saved one. -/

/-- One fit computation: the terminal's size becomes `fitted`; the
returned flag says whether `async_resize_pty` was invoked
(`prevRows !== newRows || prevCols !== newCols`). -/
def fitStep (cur fitted : Nat × Nat) : (Nat × Nat) × Bool :=
  (fitted, decide (cur ≠ fitted))

/-- `fitActiveTerminal`: a no-op unless an active terminal exists and
its container is visible; otherwise one fit step. -/
def fitActiveTerminal (hasActive visible : Bool) (cur fitted : Nat × Nat) :
    (Nat × Nat) × Bool :=
  if hasActive = true ∧ visible = true then fitStep cur fitted else (cur, false)

/-- Fold a sequence of fit computations over the visible active
terminal, collecting the sizes passed to `async_resize_pty`. -/
def runFits (cur : Nat × Nat) : List (Nat × Nat) → (Nat × Nat) × List (Nat × Nat)
  | [] => (cur, [])
  | f :: rest =>
    let s := fitStep cur f
    let r := runFits s.1 rest
    (r.1, (if s.2 then [f] else []) ++ r.2)

theorem runFits_replicate (cur s : Nat × Nat) (n : Nat) :
    (runFits cur (List.replicate n s)).2 =
      if n ≠ 0 ∧ cur ≠ s then [s] else [] := by
  induction n generalizing cur with
  | zero => simp [runFits]
  | succ n ih =>
    rw [List.replicate_succ]
    simp only [runFits, fitStep, ih s]
    by_cases hc : cur = s
    · subst hc
      simp
    · simp [hc]

/-- C7.  Resize suppression: repeated fit computations on the visible
active terminal that all yield the same (rows, cols) issue at most one
`async_resize_pty` call (exactly one when the size actually changed,
none otherwise), and `fitActiveTerminal` issues a resize only when the
newly computed size differs from the terminal's last-applied size. -/
theorem c7_resize_suppression (cur s : Nat × Nat) (n : Nat) :
    (runFits cur (List.replicate n s)).2.length ≤ 1 ∧
    (∀ hasActive visible f,
      (fitActiveTerminal hasActive visible cur f).2 = true → cur ≠ f) := by
  constructor
  · rw [runFits_replicate]
    by_cases h : n ≠ 0 ∧ cur ≠ s <;> simp [h]
  · intro hasActive visible f hcall
    unfold fitActiveTerminal at hcall
    by_cases hg : hasActive = true ∧ visible = true
    · rw [if_pos hg] at hcall
      simpa [fitStep] using hcall
    · rw [if_neg hg] at hcall
      exact Bool.noConfusion hcall

/-- Witness for C7 at concrete sizes: two identical fit computations
after a real change issue exactly one resize call. -/
theorem c7_resize_suppression_witness :
    (runFits (24, 80) (List.replicate 2 (40, 120))).2.length ≤ 1 :=
  (c7_resize_suppression (24, 80) (40, 120) 2).1

/-! ### Unsolicited process exit (`pty-exited` listener)

The `pty-exited` listener maps the exited ptyId to its tab via
`ptyToTabMapRef`; if the *total number of open tabs* (`tabsRef`, which
includes settings tabs) is exactly 1 it closes the application window,
otherwise it calls the store's `removeTab`, whose tab-list change then
triggers the cleanup effect (stop read loop, drop the pty↔tab binding,
`async_remove_pty`, dispose, drop the registry entry). -/

/-- A UI tab (`TerminalTab`): settings tabs have no PTY session. -/
structure Tab where
  id : String
  isSettings : Bool
  deriving DecidableEq, Repr

/-- Multiplexer state: open tabs and active tab (terminalStore),
registry `terminalsRef` (tabId → ptyId), `ptyToTabMapRef`
(ptyId → tabId), `activeReadLoopsRef`, destroyed ptys, and the number
of `window.close()` calls. -/
structure MuxState where
  tabs : List Tab
  activeTabId : Option String
  terminals : List (String × String)
  ptyToTab : List (String × String)
  activeReadLoops : List String
  destroyedPtys : List String
  closeCalls : Nat
  deriving DecidableEq, Repr

/-- Association-list lookup (`Map.get`). -/
def lookupA (l : List (String × String)) (k : String) : Option String :=
  (l.find? (fun e => e.1 = k)).map (fun e => e.2)

/-- The store's `removeTab`: filters the tab out; when it was the
active tab and tabs remain, the first remaining tab becomes active. -/
def removeTab (st : MuxState) (id : String) : MuxState :=
  let filtered := st.tabs.filter (fun t => t.id ≠ id)
  let newActive :=
    if st.activeTabId = some id then
      match filtered with
      | t :: _ => some t.id
      | [] => st.activeTabId
    else st.activeTabId
  { st with tabs := filtered, activeTabId := newActive }

/-- The cleanup effect that reacts to a tab-list change: every registry
entry whose tab no longer exists has its read loop stopped, its
pty↔tab binding dropped, its PTY destroyed, and its registry entry
removed. -/
def cleanupRemovedTabs (st : MuxState) : MuxState :=
  let removed := st.terminals.filter (fun e => ¬ st.tabs.any (fun t => t.id = e.1))
  { st with
    terminals := st.terminals.filter (fun e => st.tabs.any (fun t => t.id = e.1)),
    activeReadLoops :=
      st.activeReadLoops.filter (fun p => ¬ removed.any (fun e => e.2 = p)),
    ptyToTab := st.ptyToTab.filter (fun e => ¬ removed.any (fun r => r.2 = e.1)),
    destroyedPtys := st.destroyedPtys ++ removed.map (fun e => e.2) }

/-- The `pty-exited` listener: look the tab up; with exactly one open
tab (settings tabs included) close the window, otherwise remove that
tab (the cleanup effect then runs). -/
def onPtyExited (st : MuxState) (ptyId : String) : MuxState :=
  match lookupA st.ptyToTab ptyId with
  | none => st
  | some tabId =>
    if st.tabs.length = 1 then { st with closeCalls := st.closeCalls + 1 }
    else cleanupRemovedTabs (removeTab st tabId)

/-- C6 counterexample: one terminal tab plus one settings tab — the
terminal session is the last remaining session, yet its process exit
does not close the application (the listener counts tabs, not
sessions); the tab is removed instead. -/
theorem c6_last_session_counterexample :
    (onPtyExited
        ⟨[⟨"t1", false⟩, ⟨"s", true⟩], some "t1", [("t1", "p1")],
          [("p1", "t1")], ["p1"], [], 0⟩ "p1").closeCalls = 0 ∧
      (⟨[⟨"t1", false⟩, ⟨"s", true⟩], some "t1", [("t1", "p1")],
          [("p1", "t1")], ["p1"], [], 0⟩ : MuxState).terminals.length = 1 := by
  constructor
  · rfl
  · rfl

/-- C6 (amended).  When a PTY process exits unsolicited, the reaction
is keyed on the number of open tabs, settings tabs included: with
exactly one open tab, exactly one application-close is triggered and
nothing else changes; with two or more tabs, only the tab bound to
that PTY is removed — no close happens, other tabs survive, the exited
session's PTY is destroyed, and every session bound to a surviving tab
stays registered. -/
theorem c6_last_tab_exit (st : MuxState) (ptyId tabId : String)
    (hmap : lookupA st.ptyToTab ptyId = some tabId) :
    (st.tabs.length = 1 →
      onPtyExited st ptyId = { st with closeCalls := st.closeCalls + 1 }) ∧
    (st.tabs.length ≠ 1 →
      (onPtyExited st ptyId).closeCalls = st.closeCalls ∧
      (onPtyExited st ptyId).tabs = st.tabs.filter (fun t => t.id ≠ tabId) ∧
      ((tabId, ptyId) ∈ st.terminals →
        ptyId ∈ (onPtyExited st ptyId).destroyedPtys) ∧
      (∀ e ∈ st.terminals, e.1 ≠ tabId → (∃ t ∈ st.tabs, t.id = e.1) →
        e ∈ (onPtyExited st ptyId).terminals)) := by
  constructor
  · intro h1
    simp only [onPtyExited, hmap, if_pos h1]
  · intro hn
    simp only [onPtyExited, hmap, if_neg hn]
    have htabs : (removeTab st tabId).tabs = st.tabs.filter (fun t => t.id ≠ tabId) := rfl
    refine ⟨rfl, ?_, ?_, ?_⟩
    · simp only [cleanupRemovedTabs, htabs]
    · intro hmem
      simp only [cleanupRemovedTabs, htabs]
      simp only [MuxState.destroyedPtys, List.mem_append, List.mem_map]
      right
      refine ⟨(tabId, ptyId), ?_, rfl⟩
      rw [List.mem_filter]
      refine ⟨hmem, ?_⟩
      simp only [List.any_eq_true, decide_eq_true_eq, not_exists]
      intro t
      rw [List.mem_filter]
      simp only [decide_eq_true_eq, decide_not, Bool.not_eq_true', decide_eq_false_iff_not,
        not_and]
      intro ht hne
      exact ht.2 hne
    · intro e hmem hne ht
      obtain ⟨t, htmem, htid⟩ := ht
      simp only [cleanupRemovedTabs, htabs]
      rw [List.mem_filter]
      refine ⟨hmem, ?_⟩
      simp only [List.any_eq_true, decide_eq_true_eq]
      refine ⟨t, ?_, htid⟩
      rw [List.mem_filter]
      refine ⟨htmem, ?_⟩
      simp only [decide_eq_true_eq, decide_not, Bool.not_eq_true', decide_eq_false_iff_not]
      rw [htid]
      exact hne

/-- Witness for C6 with a sole tab: the exit closes the application
exactly once. -/
theorem c6_last_tab_exit_witness :
    onPtyExited ⟨[⟨"t1", false⟩], some "t1", [("t1", "p1")], [("p1", "t1")],
        ["p1"], [], 0⟩ "p1" =
      { (⟨[⟨"t1", false⟩], some "t1", [("t1", "p1")], [("p1", "t1")],
          ["p1"], [], 0⟩ : MuxState) with closeCalls := 1 } :=
  (c6_last_tab_exit
    ⟨[⟨"t1", false⟩], some "t1", [("t1", "p1")], [("p1", "t1")], ["p1"], [], 0⟩
    "p1" "t1" rfl).1 rfl

end LocalMux

namespace RemoteControl

/-! ## Windows code-page priming (remoteControl.ts, `handleCommandExecute`)

On a Windows platform the handler, after registering the session and
before anything else, writes `chcp 65001 >nul 2>&1\r`, waits 300 ms,
performs a *single* `async_read_from_pty` whose result is discarded
(errors ignored), then starts the read loop and finally writes the user
command.  Only that one discarded read stands between the priming
output and the peer: every later chunk is drained by the read loop and
emitted. -/

/-- An externally visible action of the Windows execute path. -/
inductive WAction
  | writePty (data : String)
  | discardRead
  | startLoop
  deriving DecidableEq, Repr

/-- Action sequence of a successful Windows execute: priming write,
discarded read, read-loop start, user-command write. -/
def windowsExecuteActions (command : String) : List WAction :=
  [WAction.writePty "chcp 65001 >nul 2>&1\r", WAction.discardRead,
    WAction.startLoop, WAction.writePty (command ++ "\r")]

/-- Chunks emitted to the peer during a Windows execute whose socket
stays connected, given the chunks the priming command produces (at
least its echoed command line) and the chunks produced from the user
command onward: the single discarded read consumes the first pending
priming chunk, and the read loop emits every later non-empty chunk. -/
def windowsExecuteEmitted (primingChunks commandChunks : List String) : List String :=
  (primingChunks.drop 1 ++ commandChunks).filter (fun d => d ≠ "")

/-- C8 counterexample: priming output that arrives as two chunks — the
discarded read consumes only the first, and the second priming chunk is
emitted to the peer before any user-command output. -/
theorem c8_priming_leak_counterexample :
    windowsExecuteEmitted ["chcp1", "chcp2"] ["cmd-out"] = ["chcp2", "cmd-out"] ∧
      "chcp2" ∈ ["chcp1", "chcp2"] := by
  constructor
  · rfl
  · simp

/-- C8 (amended).  The priming sequence does run before the user
command is written (its write is the first action, the user-command
write the last), but only a single read of priming output is
discarded: the peer receives no priming output exactly when the
priming output arrives as one chunk before the discard read; any
further priming chunk is emitted to the peer. -/
theorem c8_windows_priming (command : String)
    (primingChunks commandChunks : List String) :
    (windowsExecuteActions command).head? =
        some (WAction.writePty "chcp 65001 >nul 2>&1\r") ∧
    (windowsExecuteActions command).getLast? =
        some (WAction.writePty (command ++ "\r")) ∧
    (primingChunks.length = 1 →
      ∀ d ∈ windowsExecuteEmitted primingChunks commandChunks, d ∈ commandChunks) ∧
    (∀ d ∈ windowsExecuteEmitted primingChunks commandChunks,
      d ∈ primingChunks.drop 1 ∨ d ∈ commandChunks) := by
  refine ⟨rfl, rfl, ?_, ?_⟩
  · intro hlen d hd
    match primingChunks, hlen with
    | [x], _ =>
      simp only [windowsExecuteEmitted, List.drop, List.nil_append] at hd
      exact (List.mem_filter.mp hd).1
  · intro d hd
    have := (List.mem_filter.mp hd).1
    exact List.mem_append.mp this

/-- Witness for C8: with single-chunk priming output, all emitted
chunks come from the user command. -/
theorem c8_windows_priming_witness :
    ∀ d ∈ windowsExecuteEmitted ["chcp1"] ["hi"], d ∈ ["hi"] :=
  (c8_windows_priming "echo hi" ["chcp1"] ["hi"]).2.2.1 rfl

end RemoteControl

namespace Registry

/-! ## Registry / read-loop invariant (C4)

Operation-granular transition systems for both components, each
operation modelling one complete code path.

Local Multiplexer (`useMultipleTerminals`): `getOrCreateTerminal`
(spawn, `startReadLoop`, registry insert — or nothing on spawn
failure), the removed-tab cleanup effect (stop loop, destroy pty, drop
registry entry), the read-loop EOF/error exit together with its
`pty-exited` reaction (window close when it was the last tab, else tab
removal and cleanup), and unmount.  Handle ids returned by
`async_create_shell` are fresh, which the create operation's guard
encodes.

Remote Bridge (`RemoteControlService`): the four outcomes of
`handleCommandExecute` for a fresh sessionId (success; spawn failure;
priming-write failure, which registers the session but never reaches
`startReadLoop`; command-write failure, which registers and starts the
loop), `cleanupSession` run to completion (cancel, inferred completion,
or disconnect bulk cleanup), and the read loop ending on EOF/error with
the session still present. -/

/-- Local Multiplexer state: registry `terminalsRef` (tabId → ptyId),
`activeReadLoopsRef`, destroyed ptys, ever-started loops (history), and
whether the window was closed. -/
structure LMState where
  terminals : List (String × String)
  activeReadLoops : List String
  destroyed : List String
  started : List String
  closed : Bool
  deriving DecidableEq, Repr

inductive LOp
  | opCreate (tabId ptyId : String)
  | opCreateFail (tabId : String)
  | opRemoveTab (tabId : String)
  | opLoopExit (ptyId : String) (lastTab : Bool)
  | opUnmount
  deriving DecidableEq, Repr

/-- One complete Local Multiplexer operation. -/
def applyL (st : LMState) (op : LOp) : LMState :=
  if st.closed = true then st
  else
    match op with
    | LOp.opCreate tabId ptyId =>
      if st.terminals.any (fun e => e.1 = tabId) then st
      else if ptyId ∈ st.started then st
      else
        { st with
          terminals := (tabId, ptyId) :: st.terminals,
          activeReadLoops := ptyId :: st.activeReadLoops,
          started := ptyId :: st.started }
    | LOp.opCreateFail _ => st
    | LOp.opRemoveTab tabId =>
      match st.terminals.find? (fun e => e.1 = tabId) with
      | none => st
      | some entry =>
        { st with
          terminals := st.terminals.filter (fun e => e.1 ≠ tabId),
          activeReadLoops := st.activeReadLoops.erase entry.2,
          destroyed := entry.2 :: st.destroyed }
    | LOp.opLoopExit ptyId lastTab =>
      if ptyId ∈ st.activeReadLoops then
        match st.terminals.find? (fun e => e.2 = ptyId) with
        | some entry =>
          if lastTab then
            { st with
              closed := true,
              terminals := [],
              activeReadLoops := [],
              destroyed := st.terminals.map (fun e => e.2) ++ st.destroyed }
          else
            { st with
              terminals := st.terminals.filter (fun e => e.1 ≠ entry.1),
              activeReadLoops := st.activeReadLoops.erase ptyId,
              destroyed := ptyId :: st.destroyed }
        | none => { st with activeReadLoops := st.activeReadLoops.erase ptyId }
      else st
    | LOp.opUnmount =>
      { st with
        closed := true,
        terminals := [],
        activeReadLoops := [],
        destroyed := st.terminals.map (fun e => e.2) ++ st.destroyed }

/-- The Local Multiplexer's registry/read-loop invariant: a read loop
is active for a pty iff a registry entry binds it, loops are 1:1 with
entries, every ever-started loop that is no longer active has had its
handle destroyed, and tab/pty keys are unique. -/
def LInv (st : LMState) : Prop :=
  (∀ e ∈ st.terminals, e.2 ∈ st.activeReadLoops) ∧
  (∀ p ∈ st.activeReadLoops, ∃ e ∈ st.terminals, e.2 = p) ∧
  (∀ p ∈ st.activeReadLoops, p ∈ st.started) ∧
  (∀ p ∈ st.started, p ∉ st.activeReadLoops → p ∈ st.destroyed) ∧
  st.activeReadLoops.Nodup ∧
  (∀ e ∈ st.terminals, ∀ e' ∈ st.terminals, e.2 = e'.2 → e = e') ∧
  (∀ e ∈ st.terminals, ∀ e' ∈ st.terminals, e.1 = e'.1 → e = e')

def runL (st : LMState) : List LOp → LMState
  | [] => st
  | op :: rest => runL (applyL st op) rest

/-- The empty initial Local Multiplexer state. -/
def initL : LMState := ⟨[], [], [], [], false⟩

theorem LInv_initL : LInv initL := by
  refine ⟨?_, ?_, ?_, ?_, ?_, ?_, ?_⟩ <;> simp [initL]

theorem LInv_removeEntry (st : LMState) (entry : String × String)
    (hmem : entry ∈ st.terminals) (h : LInv st) :
    LInv { st with
      terminals := st.terminals.filter (fun e => e.1 ≠ entry.1),
      activeReadLoops := st.activeReadLoops.erase entry.2,
      destroyed := entry.2 :: st.destroyed } := by
  obtain ⟨h1, h2, h3, h4, h5, h6, h7⟩ := h
  refine ⟨?_, ?_, ?_, ?_, ?_, ?_, ?_⟩
  · intro e he
    rw [List.mem_filter] at he
    obtain ⟨heT, hetab⟩ := he
    simp only [decide_eq_true_eq] at hetab
    have hne2 : e.2 ≠ entry.2 := fun heq => hetab (congrArg Prod.fst (h6 e heT entry hmem heq))
    exact (List.Nodup.mem_erase_iff h5).mpr ⟨hne2, h1 e heT⟩
  · intro p hp
    rw [List.Nodup.mem_erase_iff h5] at hp
    obtain ⟨hpne, hploops⟩ := hp
    obtain ⟨e, heT, hep⟩ := h2 p hploops
    refine ⟨e, ?_, hep⟩
    rw [List.mem_filter]
    refine ⟨heT, ?_⟩
    simp only [decide_eq_true_eq]
    intro heq
    have he' := h7 e heT entry hmem heq
    rw [he'] at hep
    exact hpne hep.symm
  · intro p hp
    exact h3 p (List.mem_of_mem_erase hp)
  · intro p hps hpn
    by_cases hpe : p = entry.2
    · exact hpe ▸ List.mem_cons_self _ _
    · refine List.mem_cons_of_mem _ (h4 p hps ?_)
      intro hploops
      exact hpn ((List.Nodup.mem_erase_iff h5).mpr ⟨hpe, hploops⟩)
  · exact h5.erase _
  · intro e he e' he'
    rw [List.mem_filter] at he he'
    exact h6 e he.1 e' he'.1
  · intro e he e' he'
    rw [List.mem_filter] at he he'
    exact h7 e he.1 e' he'.1

theorem LInv_closeAll (st : LMState) (h : LInv st) :
    LInv { st with
      closed := true, terminals := [], activeReadLoops := [],
      destroyed := st.terminals.map (fun e => e.2) ++ st.destroyed } := by
  obtain ⟨h1, h2, h3, h4, h5, h6, h7⟩ := h
  refine ⟨?_, ?_, ?_, ?_, ?_, ?_, ?_⟩
  · intro e he
    exact absurd he (List.not_mem_nil e)
  · intro p hp
    exact absurd hp (List.not_mem_nil p)
  · intro p hp
    exact absurd hp (List.not_mem_nil p)
  · intro p hps _
    rw [List.mem_append]
    by_cases hpl : p ∈ st.activeReadLoops
    · obtain ⟨e, heT, hep⟩ := h2 p hpl
      exact Or.inl (List.mem_map.mpr ⟨e, heT, hep⟩)
    · exact Or.inr (h4 p hps hpl)
  · exact List.nodup_nil
  · intro e he
    exact absurd he (List.not_mem_nil e)
  · intro e he
    exact absurd he (List.not_mem_nil e)

theorem LInv_applyL (st : LMState) (op : LOp) (h : LInv st) : LInv (applyL st op) := by
  obtain ⟨h1, h2, h3, h4, h5, h6, h7⟩ := h
  by_cases hcl : st.closed = true
  · simp only [applyL, if_pos hcl]
    cases op <;> exact ⟨h1, h2, h3, h4, h5, h6, h7⟩
  · cases op with
    | opCreate tabId ptyId =>
      simp only [applyL, if_neg hcl]
      by_cases hex : (st.terminals.any fun e => decide (e.1 = tabId)) = true
      · rw [if_pos hex]
        exact ⟨h1, h2, h3, h4, h5, h6, h7⟩
      · rw [if_neg hex]
        simp only [List.any_eq_true, decide_eq_true_eq, not_exists] at hex
        by_cases hst : ptyId ∈ st.started
        · rw [if_pos hst]
          exact ⟨h1, h2, h3, h4, h5, h6, h7⟩
        · rw [if_neg hst]
          have hnl : ptyId ∉ st.activeReadLoops := fun hm => hst (h3 _ hm)
          refine ⟨?_, ?_, ?_, ?_, ?_, ?_, ?_⟩
          · intro e he
            rcases List.mem_cons.mp he with rfl | he'
            · exact List.mem_cons_self _ _
            · exact List.mem_cons_of_mem _ (h1 e he')
          · intro p hp
            rcases List.mem_cons.mp hp with rfl | hp'
            · exact ⟨(tabId, p), List.mem_cons_self _ _, rfl⟩
            · obtain ⟨e, he, hep⟩ := h2 p hp'
              exact ⟨e, List.mem_cons_of_mem _ he, hep⟩
          · intro p hp
            rcases List.mem_cons.mp hp with rfl | hp'
            · exact List.mem_cons_self _ _
            · exact List.mem_cons_of_mem _ (h3 p hp')
          · intro p hp hnp
            rcases List.mem_cons.mp hp with rfl | hp'
            · exact absurd (List.mem_cons_self _ _) hnp
            · exact h4 p hp' fun hm => hnp (List.mem_cons_of_mem _ hm)
          · exact List.nodup_cons.mpr ⟨hnl, h5⟩
          · intro e he e' he'
            rcases List.mem_cons.mp he with rfl | he2 <;>
              rcases List.mem_cons.mp he' with rfl | he2'
            · intro _
              rfl
            · intro hpe
              have hmem : e'.2 ∈ st.started := h3 _ (h1 e' he2')
              rw [← hpe] at hmem
              exact absurd hmem hst
            · intro hpe
              have hmem : e.2 ∈ st.started := h3 _ (h1 e he2)
              rw [hpe] at hmem
              exact absurd hmem hst
            · exact h6 e he2 e' he2'
          · intro e he e' he'
            rcases List.mem_cons.mp he with rfl | he2 <;>
              rcases List.mem_cons.mp he' with rfl | he2'
            · intro _
              rfl
            · intro hte
              exact (hex e' ⟨he2', hte.symm⟩).elim
            · intro hte
              exact (hex e ⟨he2, hte⟩).elim
            · exact h7 e he2 e' he2'
    | opCreateFail tabId =>
      simp only [applyL, if_neg hcl]
      exact ⟨h1, h2, h3, h4, h5, h6, h7⟩
    | opRemoveTab tabId =>
      simp only [applyL, if_neg hcl]
      cases hfind : st.terminals.find? (fun e => decide (e.1 = tabId)) with
      | none => exact ⟨h1, h2, h3, h4, h5, h6, h7⟩
      | some entry =>
        have hentry_mem : entry ∈ st.terminals := List.mem_of_find?_eq_some hfind
        have hentry_tab : entry.1 = tabId := by
          have := List.find?_some hfind
          simpa using this
        rw [← hentry_tab]
        exact LInv_removeEntry st entry hentry_mem ⟨h1, h2, h3, h4, h5, h6, h7⟩
    | opLoopExit ptyId lastTab =>
      simp only [applyL, if_neg hcl]
      by_cases hact : ptyId ∈ st.activeReadLoops
      · rw [if_pos hact]
        cases hfind : st.terminals.find? (fun e => decide (e.2 = ptyId)) with
        | none =>
          obtain ⟨e, he, hep⟩ := h2 ptyId hact
          have := List.find?_eq_none.mp hfind e he
          simp only [decide_eq_true_eq] at this
          exact absurd hep this
        | some entry =>
          have hentry_mem : entry ∈ st.terminals := List.mem_of_find?_eq_some hfind
          have hentry_pty : entry.2 = ptyId := by
            have := List.find?_some hfind
            simpa using this
          cases lastTab with
          | true =>
            simp only [if_pos rfl]
            exact LInv_closeAll st ⟨h1, h2, h3, h4, h5, h6, h7⟩
          | false =>
            simp only [Bool.false_eq_true, if_neg, if_false]
            rw [← hentry_pty]
            exact LInv_removeEntry st entry hentry_mem ⟨h1, h2, h3, h4, h5, h6, h7⟩
      · rw [if_neg hact]
        exact ⟨h1, h2, h3, h4, h5, h6, h7⟩
    | opUnmount =>
      simp only [applyL, if_neg hcl]
      exact LInv_closeAll st ⟨h1, h2, h3, h4, h5, h6, h7⟩

theorem LInv_runL (ops : List LOp) (st : LMState) (h : LInv st) : LInv (runL st ops) := by
  induction ops generalizing st with
  | nil => exact h
  | cons op rest ih => exact ih (applyL st op) (LInv_applyL st op h)

/-- Remote Bridge state: `activeSessions` (sessionId → ptyId), the
per-session `isActive` flags of running read loops, sessions whose PTY
was destroyed, and sessions whose read loop was ever started. -/
structure RBState where
  activeSessions : List (String × String)
  activeFlags : List String
  destroyedFor : List String
  started : List String
  deriving DecidableEq, Repr

inductive ROp
  | opExecOk (sessionId ptyId : String)
  | opExecSpawnFail (sessionId : String)
  | opExecPrimingWriteFail (sessionId ptyId : String)
  | opExecCmdWriteFail (sessionId ptyId : String)
  | opCleanup (sessionId : String)
  | opLoopEnd (sessionId : String)
  deriving DecidableEq, Repr

/-- `handleCommandExecute` success path (also reached when only the
final command write fails): register the session, start its read
loop. -/
def registerAndStart (st : RBState) (sessionId ptyId : String) : RBState :=
  if st.activeSessions.any (fun e => e.1 = sessionId) then st
  else
    { st with
      activeSessions := (sessionId, ptyId) :: st.activeSessions,
      activeFlags := sessionId :: st.activeFlags,
      started := sessionId :: st.started }

/-- `cleanupSession` run to completion: when the session is present,
stop its loop (`unlistenRead`), destroy its PTY, remove it from the
map; otherwise do nothing. -/
def cleanupSessionR (st : RBState) (sessionId : String) : RBState :=
  if st.activeSessions.any (fun e => e.1 = sessionId) then
    { st with
      activeSessions := st.activeSessions.filter (fun e => e.1 ≠ sessionId),
      activeFlags := st.activeFlags.erase sessionId,
      destroyedFor := sessionId :: st.destroyedFor }
  else st

/-- One complete Remote Bridge operation (for a fresh sessionId on the
execute paths; the source would overwrite an existing map entry). -/
def applyR (st : RBState) : ROp → RBState
  | ROp.opExecOk sid pid => registerAndStart st sid pid
  | ROp.opExecSpawnFail _ => st
  | ROp.opExecPrimingWriteFail sid pid =>
    if st.activeSessions.any (fun e => e.1 = sid) then st
    else { st with activeSessions := (sid, pid) :: st.activeSessions }
  | ROp.opExecCmdWriteFail sid pid => registerAndStart st sid pid
  | ROp.opCleanup sid => cleanupSessionR st sid
  | ROp.opLoopEnd sid => cleanupSessionR st sid

/-- The Remote Bridge registry/read-loop invariant: a read loop is
active for a session iff the session is in `activeSessions`, every
started-and-stopped loop has had its PTY destroyed, and session keys
are unique. -/
def RInv (st : RBState) : Prop :=
  (∀ e ∈ st.activeSessions, e.1 ∈ st.activeFlags) ∧
  (∀ s ∈ st.activeFlags, ∃ e ∈ st.activeSessions, e.1 = s) ∧
  (∀ s ∈ st.activeFlags, s ∈ st.started) ∧
  (∀ s ∈ st.started, s ∉ st.activeFlags → s ∈ st.destroyedFor) ∧
  st.activeFlags.Nodup ∧
  (∀ e ∈ st.activeSessions, ∀ e' ∈ st.activeSessions, e.1 = e'.1 → e = e')

/-- Operations on which the invariant is claimed: everything except the
Windows priming-write failure path. -/
def goodROp : ROp → Prop
  | ROp.opExecPrimingWriteFail _ _ => False
  | _ => True

def runR (st : RBState) : List ROp → RBState
  | [] => st
  | op :: rest => runR (applyR st op) rest

/-- The empty initial Remote Bridge state. -/
def initR : RBState := ⟨[], [], [], []⟩

theorem RInv_initR : RInv initR := by
  refine ⟨?_, ?_, ?_, ?_, ?_, ?_⟩ <;> simp [initR]

theorem RInv_registerAndStart (st : RBState) (sid pid : String) (h : RInv st) :
    RInv (registerAndStart st sid pid) := by
  obtain ⟨h1, h2, h3, h4, h5, h6⟩ := h
  unfold registerAndStart
  by_cases hex : (st.activeSessions.any fun e => decide (e.1 = sid)) = true
  · rw [if_pos hex]
    exact ⟨h1, h2, h3, h4, h5, h6⟩
  · rw [if_neg hex]
    simp only [List.any_eq_true, decide_eq_true_eq, not_exists, not_and] at hex
    have hnf : sid ∉ st.activeFlags := by
      intro hm
      obtain ⟨e, he, hes⟩ := h2 sid hm
      exact hex e he hes
    refine ⟨?_, ?_, ?_, ?_, ?_, ?_⟩
    · intro e he
      rcases List.mem_cons.mp he with rfl | he'
      · exact List.mem_cons_self _ _
      · exact List.mem_cons_of_mem _ (h1 e he')
    · intro s hs
      rcases List.mem_cons.mp hs with rfl | hs'
      · exact ⟨(s, pid), List.mem_cons_self _ _, rfl⟩
      · obtain ⟨e, he, hes⟩ := h2 s hs'
        exact ⟨e, List.mem_cons_of_mem _ he, hes⟩
    · intro s hs
      rcases List.mem_cons.mp hs with rfl | hs'
      · exact List.mem_cons_self _ _
      · exact List.mem_cons_of_mem _ (h3 s hs')
    · intro s hs hns
      rcases List.mem_cons.mp hs with rfl | hs'
      · exact absurd (List.mem_cons_self _ _) hns
      · exact h4 s hs' fun hm => hns (List.mem_cons_of_mem _ hm)
    · exact List.nodup_cons.mpr ⟨hnf, h5⟩
    · intro e he e' he'
      rcases List.mem_cons.mp he with rfl | he2 <;>
        rcases List.mem_cons.mp he' with rfl | he2'
      · intro _
        rfl
      · intro hse
        exact (hex e' he2' hse.symm).elim
      · intro hse
        exact (hex e he2 hse).elim
      · exact h6 e he2 e' he2'

theorem RInv_cleanupSessionR (st : RBState) (sid : String) (h : RInv st) :
    RInv (cleanupSessionR st sid) := by
  obtain ⟨h1, h2, h3, h4, h5, h6⟩ := h
  unfold cleanupSessionR
  by_cases hex : (st.activeSessions.any fun e => decide (e.1 = sid)) = true
  · rw [if_pos hex]
    refine ⟨?_, ?_, ?_, ?_, ?_, ?_⟩
    · intro e he
      rw [List.mem_filter] at he
      obtain ⟨heS, hene⟩ := he
      simp only [decide_eq_true_eq] at hene
      exact (List.Nodup.mem_erase_iff h5).mpr ⟨hene, h1 e heS⟩
    · intro s hs
      rw [List.Nodup.mem_erase_iff h5] at hs
      obtain ⟨hsne, hsf⟩ := hs
      obtain ⟨e, heS, hes⟩ := h2 s hsf
      refine ⟨e, ?_, hes⟩
      rw [List.mem_filter]
      refine ⟨heS, ?_⟩
      simp only [decide_eq_true_eq]
      rw [hes]
      exact hsne
    · intro s hs
      exact h3 s (List.mem_of_mem_erase hs)
    · intro s hss hsn
      by_cases hse : s = sid
      · exact hse ▸ List.mem_cons_self _ _
      · refine List.mem_cons_of_mem _ (h4 s hss ?_)
        intro hsf
        exact hsn ((List.Nodup.mem_erase_iff h5).mpr ⟨hse, hsf⟩)
    · exact h5.erase _
    · intro e he e' he'
      rw [List.mem_filter] at he he'
      exact h6 e he.1 e' he'.1
  · rw [if_neg hex]
    exact ⟨h1, h2, h3, h4, h5, h6⟩

theorem RInv_applyR (st : RBState) (op : ROp) (hg : goodROp op) (h : RInv st) :
    RInv (applyR st op) := by
  cases op with
  | opExecOk sid pid => exact RInv_registerAndStart st sid pid h
  | opExecSpawnFail sid => exact h
  | opExecPrimingWriteFail sid pid => exact hg.elim
  | opExecCmdWriteFail sid pid => exact RInv_registerAndStart st sid pid h
  | opCleanup sid => exact RInv_cleanupSessionR st sid h
  | opLoopEnd sid => exact RInv_cleanupSessionR st sid h

theorem RInv_runR (ops : List ROp) (st : RBState)
    (hgood : ∀ op ∈ ops, goodROp op) (h : RInv st) : RInv (runR st ops) := by
  induction ops generalizing st with
  | nil => exact h
  | cons op rest ih =>
    exact ih (applyR st op) (fun o ho => hgood o (List.mem_cons_of_mem _ ho))
      (RInv_applyR st op (hgood op (List.mem_cons_self _ _)) h)

/-- C4 counterexample: on Windows, an execute whose priming write fails
(after the session was inserted into `activeSessions` but before
`startReadLoop`) leaves a state with the session present in the Remote
Bridge registry and no read loop active for it — the claimed invariant
fails between operations. -/
theorem c4_invariant_counterexample :
    ("s1", "p1") ∈ (applyR initR (ROp.opExecPrimingWriteFail "s1" "p1")).activeSessions ∧
      "s1" ∉ (applyR initR (ROp.opExecPrimingWriteFail "s1" "p1")).activeFlags ∧
      ¬ RInv (applyR initR (ROp.opExecPrimingWriteFail "s1" "p1")) := by
  refine ⟨by simp [applyR, initR], by simp [applyR, initR], ?_⟩
  intro h
  have hmem : ("s1", "p1") ∈ (applyR initR (ROp.opExecPrimingWriteFail "s1" "p1")).activeSessions := by
    simp [applyR, initR]
  have := h.1 ("s1", "p1") hmem
  simp [applyR, initR] at this

/-- C4 (amended).  The registry/read-loop invariant — a read loop is
active for a session iff the session is present in its owning registry,
and a stopped loop always has its handle destroyed — holds in both
components at every operation boundary for every operation except the
remote execute whose post-registration priming write fails (Windows):
that path leaves the session registered with no read loop.  (The model
assumes fresh handle/session ids and that a local read-loop termination
coincides with its pty-exited reaction.) -/
theorem c4_registry_readloop_invariant (lops : List LOp) (rops : List ROp)
    (hgood : ∀ op ∈ rops, goodROp op) :
    LInv (runL initL lops) ∧ RInv (runR initR rops) :=
  ⟨LInv_runL lops initL LInv_initL, RInv_runR rops initR hgood RInv_initR⟩

/-- Witness for C4 at concrete traces: one local create and one remote
execute preserve both invariants. -/
theorem c4_registry_readloop_invariant_witness :
    LInv (runL initL [LOp.opCreate "t1" "p1"]) ∧
      RInv (runR initR [ROp.opExecOk "s1" "p1"]) :=
  c4_registry_readloop_invariant [LOp.opCreate "t1" "p1"] [ROp.opExecOk "s1" "p1"]
    (by
      intro op hop
      simp only [List.mem_singleton] at hop
      subst hop
      simp [goodROp])

end Registry
